import Mathlib

/-!
Verification of the matchmaking / session pipeline of the
`cursed-faction-N.F.T-collection-` repository.

The embedding below translates, function by function, the TypeScript
sources:

* `src/services/matchmaking/src/index.ts` — the Bucket Queue Manager and
  Match Formation Worker.  The Redis list at key `mm_queue:<bucket>` is
  modelled as a Lean `List EnqueuePayload`, ordered OLDEST FIRST (the tail
  of the Redis list, where `lrange key -8 -1` reads, is the front of the
  Lean list; `lpush`, which prepends to the Redis head, is therefore an
  append at the back of the Lean list).  JSON round-tripping of payloads
  through the store is the identity on this typed model.
* `src/unnamed/part_007` (first document) — the Session Materializer and
  the `GET /v1/sessions/:id` endpoint, with the Redis `setex`/`get`
  pair modelled as an association list carrying absolute expiry times.
* `src/services/api-gateway/src/index.ts` (second document, the variant
  with manual validation) — the `POST /v1/matchmaking/enqueue` endpoint.

JavaScript numbers are modelled as `ℚ` (the validation code accepts any
finite number, not only integers, and the values in play are exact in
both models); timestamps also live in `ℚ` on one common axis.
-/

/- Batteries marks the rational-number operations irreducible, which keeps
kernel evaluation (`decide`) from unfolding them; re-allow it so that the
concrete scenarios below can be checked by computation. -/
set_option allowUnsafeReducibility true in
attribute [semireducible] Rat.add Rat.sub Rat.mul Rat.inv

/-- A fully typed enqueue payload `{ playerId, mmr, ts }`
(`src/services/matchmaking/src/index.ts`, line 8). -/
structure EnqueuePayload where
  playerId : String
  mmr : ℚ
  ts : ℚ
deriving DecidableEq, Repr

/-- A raw (decoded-JSON) enqueue payload: each field is absent, or present
with the type the validator tests for.  A field present with a wrong
runtime type fails the corresponding `typeof` test exactly as an absent
field does, so it is modelled as `none`. -/
structure RawPayload where
  playerId : Option String
  mmr : Option ℚ
  ts : Option ℚ
deriving DecidableEq, Repr

/-- `validateEnqueuePayload` (matchmaking service, lines 26–37): the payload
must have a string `playerId` of positive length, a numeric `mmr` with
`0 ≤ mmr ≤ 10000`, and a numeric `ts` with `ts > 0`. -/
def validateEnqueuePayloadRaw (p : RawPayload) : Bool :=
  match p.playerId, p.mmr, p.ts with
  | some pid, some m, some t =>
      decide (0 < pid.length) && decide (0 ≤ m) && decide (m ≤ 10000) &&
      decide (0 < t)
  | _, _, _ => false

/-- The same validator applied to an already-typed payload, as happens at
lines 106–115 when entries read back from the queue are re-validated
(every stored entry was stringified from a typed payload, so parsing
succeeds and the three `typeof` tests pass). -/
def validateEnqueuePayload (p : EnqueuePayload) : Bool :=
  decide (0 < p.playerId.length) && decide (0 ≤ p.mmr) &&
  decide (p.mmr ≤ 10000) && decide (0 < p.ts)

/-- Extract the typed payload from a raw one; on a payload that passed
validation every field is present and `getD` is exact. -/
def toPayload (r : RawPayload) : EnqueuePayload :=
  ⟨r.playerId.getD "", r.mmr.getD 0, r.ts.getD 0⟩

/-- `const bucket = Math.floor(payload.mmr / BUCKET) * BUCKET` with
`BUCKET = 100` (line 90). -/
def bucketOf (m : ℚ) : ℤ :=
  (m / 100).floor * 100

/-- The Ticket Store: one list per bucket key, oldest entry first
(see the orientation note in the header). -/
def Store :=
  ℤ → List EnqueuePayload

/-- Pointwise update of one bucket of the store. -/
def updateStore (st : Store) (b : ℤ) (l : List EnqueuePayload) : Store :=
  fun k => if k = b then l else st k

/-- The store with every bucket empty. -/
def emptyStore : Store :=
  fun _ => []

/-- The `match_found` message `{ mode, region, teamA, teamB, createdAt }`
built at lines 120–126. -/
structure MatchMsg where
  mode : String
  region : String
  teamA : List String
  teamB : List String
  createdAt : ℚ
deriving DecidableEq, Repr

/-- Result of handling one enqueue message: the store afterwards, the list
of `match_found` messages published (empty or a singleton), and the queue
length observed by `llen` right after the `lpush` (`none` when validation
rejected the payload and nothing touched the store). -/
structure HandleResult where
  store : Store
  published : List MatchMsg
  queueLen : Option Nat

/-- Lines 90–146 of the matchmaking service, after a payload has already
passed validation: `lpush` the payload onto its bucket, read `llen`, and
when the length reaches 8 claim the oldest 8 (`lrange key -8 -1`, which
yields them newest-first, then `ltrim key 0 -9`), re-validate them, split
4/4 into `teamA`/`teamB`, and publish `match_found`; when the publish
fails, `lpush` each claimed entry back (they land at the newest end of
the bucket, in the order of the claimed array).  `publishOk` injects the
outcome of `nats.publish`; `now` is `Date.now()`. -/
def handleValid (publishOk : Bool) (now : ℚ) (st : Store)
    (p : EnqueuePayload) : HandleResult :=
  let b := bucketOf p.mmr
  let q := st b ++ [p]
  let len := q.length
  if 8 ≤ len then
    let players := (q.take 8).reverse
    let trimmed := q.drop 8
    let parsed := players.filter validateEnqueuePayload
    if 8 ≤ parsed.length then
      let teamA := (parsed.take 4).map (fun x => x.playerId)
      let teamB := ((parsed.drop 4).take 4).map (fun x => x.playerId)
      let m : MatchMsg := ⟨"CONTROL", "auto", teamA, teamB, now⟩
      if publishOk then
        ⟨updateStore st b trimmed, [m], some len⟩
      else
        ⟨updateStore st b (trimmed ++ parsed), [], some len⟩
    else
      ⟨updateStore st b trimmed, [], some len⟩
  else
    ⟨updateStore st b q, [], some len⟩

/-- One full message-handling pass (lines 85–146): validate the decoded
payload, drop it if invalid, otherwise proceed as `handleValid`. -/
def handleEnqueue (publishOk : Bool) (now : ℚ) (st : Store)
    (raw : RawPayload) : HandleResult :=
  if validateEnqueuePayloadRaw raw then
    handleValid publishOk now st (toPayload raw)
  else
    ⟨st, [], none⟩

/-- The enqueue sub-operation in isolation (validation at line 85, `lpush`
at line 94 and `llen` at line 95): on success the payload is appended at
the newest end of its bucket and the post-append length is observed; on
validation failure the store is untouched and no length is produced. -/
def enqueueOp (st : Store) (raw : RawPayload) : Store × Option Nat :=
  if validateEnqueuePayloadRaw raw then
    let p := toPayload raw
    let b := bucketOf p.mmr
    (updateStore st b (st b ++ [p]), some ((st b).length + 1))
  else
    (st, none)

/-- One message of the consumer loop: the decoded payload plus the injected
outcome of the `match_found` publish and the wall clock at that step. -/
structure Msg where
  raw : RawPayload
  publishOk : Bool
  now : ℚ

/-- The consumer loop `for await (const msg of sub)` (lines 73–153):
process messages in order, accumulating the published `match_found`
events. -/
def runEnqueue : List Msg → Store → Store × List MatchMsg
  | [], st => (st, [])
  | m :: rest, st =>
      let r := handleEnqueue m.publishOk m.now st m.raw
      let rr := runEnqueue rest r.store
      (rr.1, r.published ++ rr.2)

/-- Wrap a typed payload as the message the gateway publishes for it. -/
def msgOf (p : EnqueuePayload) (ok : Bool) (now : ℚ) : Msg :=
  ⟨⟨some p.playerId, some p.mmr, some p.ts⟩, ok, now⟩

/-! ## Session Materializer (`src/unnamed/part_007`, first document) -/

/-- `SessionData` (part_007, line 8): note the field set — there is a
`createdAt` but no expiry field; expiry lives only in the store's TTL. -/
structure SessionData where
  id : String
  region : String
  mode : String
  teamA : List String
  teamB : List String
  createdAt : ℚ
deriving DecidableEq, Repr

/-- `validateMatchData` (part_007, lines 24–35): both teams must be arrays
of length exactly 4 (the `typeof`/`Array.isArray` tests hold by typing in
this model). -/
def validateMatchData (d : MatchMsg) : Bool :=
  d.teamA.length == 4 && d.teamB.length == 4

/-- The Session Store: the Redis keyspace written by `setex`, as an
association list of (key, value, absolute expiry time).  `setex` prepends;
`get` reads the most recent binding of a key and hides it once the clock
reaches its expiry, which is how Redis TTL expiry is observed. -/
structure SessionStore where
  entries : List (String × SessionData × ℚ)
deriving DecidableEq, Repr

/-- The session store with nothing in it. -/
def emptySessionStore : SessionStore :=
  ⟨[]⟩

/-- `redis.setex(key, ttl, value)` issued at wall-clock time `now`:
the key expires `ttl` seconds later. -/
def redisSetex (st : SessionStore) (key : String) (ttl : ℚ)
    (v : SessionData) (now : ℚ) : SessionStore :=
  ⟨(key, v, now + ttl) :: st.entries⟩

/-- `redis.get(key)` at wall-clock time `now`: the latest binding of the
key, unless its TTL has run out. -/
def redisGet (st : SessionStore) (now : ℚ) (key : String) :
    Option SessionData :=
  match st.entries.find? (fun e => e.1 == key) with
  | none => none
  | some e => if now < e.2.2 then some e.2.1 else none

/-- The `session.created` event payload `{ id, match }` (part_007,
line 91). -/
structure SessionCreatedMsg where
  id : String
  mtch : MatchMsg
deriving DecidableEq, Repr

/-- Lines 56–99 of part_007, handling one `match_found` message: drop it
when `validateMatchData` fails; otherwise build the session record
(copying `mode`, `region`, the teams, and — as written at line 82 —
`createdAt: match.createdAt`), store it under `session:<id>` with a TTL
of 24 hours (`24 * 60 * 60` seconds, line 88), and publish
`session.created { id, match }`.  `uuid` injects the value of
`randomUUID()` and `now` the wall clock of the `setex`. -/
def processMatchFound (now : ℚ) (uuid : String) (st : SessionStore)
    (m : MatchMsg) : SessionStore × List SessionCreatedMsg :=
  if validateMatchData m then
    let session : SessionData :=
      ⟨uuid, m.region, m.mode, m.teamA, m.teamB, m.createdAt⟩
    (redisSetex st ("session:" ++ uuid) (24 * 60 * 60) session now,
      [⟨uuid, m⟩])
  else
    (st, [])

/-! ## Session lookup endpoint (part_007, lines 111–138) -/

/-- One character class of the regex
`/^[0-9a-f]{8}-[0-9a-f]{4}-[1-5][0-9a-f]{3}-[89ab][0-9a-f]{3}-[0-9a-f]{12}$/i`:
a hexadecimal digit, case-insensitive. -/
def hexDigit (c : Char) : Bool :=
  ('0' ≤ c && c ≤ '9') || ('a' ≤ c && c ≤ 'f') || ('A' ≤ c && c ≤ 'F')

/-- What the regex requires of the character at position `i` (0-based):
dashes at 8, 13, 18, 23; the version nibble `[1-5]` at 14; the variant
nibble `[89ab]` (case-insensitive) at 19; hex digits elsewhere. -/
def uuidCharOk (i : Nat) (c : Char) : Bool :=
  if i == 8 || i == 13 || i == 18 || i == 23 then c == '-'
  else if i == 14 then '1' ≤ c && c ≤ '5'
  else if i == 19 then
    c == '8' || c == '9' || c == 'a' || c == 'b' || c == 'A' || c == 'B'
  else hexDigit c

/-- The whole regex test of line 116: exactly 36 characters, each passing
its positional class. -/
def uuidShaped (s : String) : Bool :=
  let cs := s.toList
  cs.length == 36 && (List.range 36).all (fun i => uuidCharOk i (cs.getD i ' '))

/-- Observable outcome of `GET /v1/sessions/:id` (the 500 branch for
unparseable stored JSON is unreachable on this typed store). -/
inductive SessionLookupResult where
  | ok (body : SessionData)
  | badRequest
  | notFound
deriving DecidableEq, Repr

/-- Lines 111–138 of part_007: reject a non-UUID-shaped id with 400 before
any store access; otherwise `redis.get("session:" + id)` and answer 404
when it yields nothing (never stored, or TTL elapsed), 200 with the stored
record otherwise. -/
def getSessionEndpoint (st : SessionStore) (now : ℚ) (id : String) :
    SessionLookupResult :=
  if !uuidShaped id then
    .badRequest
  else
    match redisGet st now ("session:" ++ id) with
    | none => .notFound
    | some s => .ok s

/-! ## API gateway enqueue endpoint
(`src/services/api-gateway/src/index.ts`, second document, lines 184–206) -/

/-- The request body of `POST /v1/matchmaking/enqueue`: `playerId` and the
optional `mmr`, each absent (or of a wrong runtime type, which the code
treats the same way for `playerId`; a non-number `mmr` is rejected exactly
as an out-of-range one, so both rejecting shapes are covered by the
out-of-range case). -/
structure GatewayBody where
  playerId : Option String
  mmr : Option ℚ
deriving DecidableEq, Repr

/-- Observable outcome of the gateway enqueue endpoint: 400 with the given
error code, or 200 `{status:"enqueued"}` after publishing the payload
`{ playerId, mmr: mmr ?? 1000, ts: Date.now() }`. -/
inductive GatewayResult where
  | enqueued (payload : RawPayload)
  | badRequest (err : String)
deriving DecidableEq, Repr

/-- Lines 184–206: reject a missing/empty `playerId`; reject a present
`mmr` outside `[0, 10000]`; reject a `playerId` that fails the UUID regex
(the same regex as the session endpoint's); otherwise publish
`matchmaking.enqueue` with `mmr` defaulted to 1000 and `ts = Date.now()`
and acknowledge.  The published message is returned in the raw-payload
shape in which the matchmaking consumer decodes it. -/
def gatewayEnqueue (now : ℚ) (b : GatewayBody) : GatewayResult :=
  match b.playerId with
  | none => .badRequest "missing_or_invalid_playerId"
  | some pid =>
      if pid.length == 0 then .badRequest "missing_or_invalid_playerId"
      else if (match b.mmr with
               | some m => decide (m < 0) || decide (10000 < m)
               | none => false) then .badRequest "invalid_mmr_range"
      else if !uuidShaped pid then .badRequest "invalid_playerId_format"
      else .enqueued ⟨some pid, some (b.mmr.getD 1000), some now⟩

/-! ## The claim step under concurrent workers

Lines 100–101 of the matchmaking service perform the claim as two separate
Redis commands — `lrange(key, -8, -1)` and then `ltrim(key, 0, -9)` —
with no transaction or script around them.  With two worker processes
running the service against the same store (the deployment the spec's §5
describes), the four commands interleave at command granularity, since
each individual Redis command is atomic but the pair is not.  The model
below runs one bucket's list through an arbitrary schedule of the two
workers' commands. -/

/-- What one worker holds after its `lrange` (`none` before it ran). -/
structure TwoWorkerState where
  bucket : List EnqueuePayload
  got1 : Option (List EnqueuePayload)
  got2 : Option (List EnqueuePayload)
deriving DecidableEq, Repr

/-- One atomic Redis command of either worker's claim sequence. -/
inductive ClaimCmd where
  | range1
  | trim1
  | range2
  | trim2
deriving DecidableEq, Repr

/-- Effect of one command: `lrange key -8 -1` reads the oldest 8 (returned
newest-first, as at line 100) without removing them; `ltrim key 0 -9`
removes the oldest 8. -/
def execClaimCmd (s : TwoWorkerState) : ClaimCmd → TwoWorkerState
  | .range1 => { s with got1 := some ((s.bucket.take 8).reverse) }
  | .range2 => { s with got2 := some ((s.bucket.take 8).reverse) }
  | .trim1 => { s with bucket := s.bucket.drop 8 }
  | .trim2 => { s with bucket := s.bucket.drop 8 }

/-- Run a schedule (an interleaving of the workers' commands). -/
def execClaimSched (s : TwoWorkerState) : List ClaimCmd → TwoWorkerState
  | [] => s
  | c :: rest => execClaimSched (execClaimCmd s c) rest

/-! ## Helper lemmas shared by the claim theorems -/

theorem updateStore_same (st : Store) (b : ℤ) (l : List EnqueuePayload) :
    updateStore st b l b = l := by
  simp [updateStore]

theorem updateStore_other (st : Store) (b k : ℤ) (l : List EnqueuePayload)
    (h : k ≠ b) : updateStore st b l k = st k := by
  simp [updateStore, h]

theorem updateStore_updateStore (st : Store) (b : ℤ)
    (l l' : List EnqueuePayload) :
    updateStore (updateStore st b l) b l' = updateStore st b l' := by
  funext k
  by_cases h : k = b <;> simp [updateStore, h]

theorem updateStore_self (st : Store) (b : ℤ) :
    updateStore st b (st b) = st := by
  funext k
  by_cases h : k = b <;> simp [updateStore, h]

theorem validateRaw_some (a : String) (m t : ℚ) :
    validateEnqueuePayloadRaw ⟨some a, some m, some t⟩ =
      validateEnqueuePayload ⟨a, m, t⟩ := rfl

theorem handleEnqueue_msgOf (ok : Bool) (now : ℚ) (st : Store)
    (p : EnqueuePayload) (h : validateEnqueuePayload p = true) :
    handleEnqueue ok now st (msgOf p ok now).raw = handleValid ok now st p := by
  show handleEnqueue ok now st ⟨some p.playerId, some p.mmr, some p.ts⟩ = _
  rw [handleEnqueue, validateRaw_some]
  simp [h, toPayload]

theorem runEnqueue_append (xs ys : List Msg) (st : Store) :
    runEnqueue (xs ++ ys) st =
      ((runEnqueue ys (runEnqueue xs st).1).1,
       (runEnqueue xs st).2 ++ (runEnqueue ys (runEnqueue xs st).1).2) := by
  induction xs generalizing st with
  | nil => simp [runEnqueue]
  | cons m rest ih => simp [runEnqueue, ih, List.append_assoc]

theorem handleValid_claim_eq (ok : Bool) (now : ℚ) (st : Store)
    (p : EnqueuePayload) (b : ℤ) (hb : bucketOf p.mmr = b)
    (hval : ∀ x ∈ st b ++ [p], validateEnqueuePayload x = true)
    (hlen : 8 ≤ (st b ++ [p]).length) :
    handleValid ok now st p =
      (let q := st b ++ [p]
       let parsed := (q.take 8).reverse
       let m : MatchMsg :=
         ⟨"CONTROL", "auto", (parsed.take 4).map (fun x => x.playerId),
          ((parsed.drop 4).take 4).map (fun x => x.playerId), now⟩
       if ok then ⟨updateStore st b (q.drop 8), [m], some q.length⟩
       else ⟨updateStore st b (q.drop 8 ++ parsed), [], some q.length⟩) := by
  have hfilter : ((st b ++ [p]).take 8).reverse.filter validateEnqueuePayload =
      ((st b ++ [p]).take 8).reverse := by
    rw [List.filter_eq_self]
    intro a ha
    exact hval a (List.take_subset 8 _ (List.mem_reverse.mp ha))
  have hplen : (((st b ++ [p]).take 8).reverse).length = 8 := by
    rw [List.length_reverse, List.length_take]
    omega
  rw [handleValid, hb]
  rw [if_pos hlen]
  simp only [hfilter, hplen, le_refl, if_true]

theorem runEnqueue_cons_valid (p : EnqueuePayload) (rest : List Msg)
    (ok : Bool) (now : ℚ) (st : Store)
    (h : validateEnqueuePayload p = true) :
    runEnqueue (msgOf p ok now :: rest) st =
      ((runEnqueue rest (handleValid ok now st p).store).1,
       (handleValid ok now st p).published ++
         (runEnqueue rest (handleValid ok now st p).store).2) := by
  simp only [runEnqueue]
  rw [show (msgOf p ok now).publishOk = ok from rfl,
      show (msgOf p ok now).now = now from rfl,
      handleEnqueue_msgOf ok now st p h]

theorem runEnqueue_noTrigger (ps : List EnqueuePayload) (st : Store) (b : ℤ)
    (now : ℚ)
    (hv : ∀ p ∈ ps, validateEnqueuePayload p = true ∧ bucketOf p.mmr = b)
    (hlen : (st b).length + ps.length ≤ 7) :
    runEnqueue (ps.map fun p => msgOf p true now) st =
      (updateStore st b (st b ++ ps), []) := by
  induction ps generalizing st with
  | nil => simp [runEnqueue, updateStore_self]
  | cons p rest ih =>
    obtain ⟨hvp, hbp⟩ := hv p (by simp)
    have hnotrig : ¬ (8 ≤ (st b ++ [p]).length) := by
      simp only [List.length_cons] at hlen
      simp only [List.length_append, List.length_cons, List.length_nil]
      omega
    have hone : handleValid true now st p =
        ⟨updateStore st b (st b ++ [p]), [], some (st b ++ [p]).length⟩ := by
      rw [handleValid, hbp, if_neg hnotrig]
    have hlen' : ((updateStore st b (st b ++ [p])) b).length + rest.length ≤ 7 := by
      rw [updateStore_same]
      simp only [List.length_cons] at hlen
      simp only [List.length_append, List.length_cons, List.length_nil]
      omega
    rw [List.map_cons, runEnqueue_cons_valid p _ true now st hvp, hone]
    rw [ih (updateStore st b (st b ++ [p])) (fun x hx => hv x (by simp [hx])) hlen']
    rw [updateStore_same, updateStore_updateStore, List.append_cons]
    simp

theorem ratFloor_eq_intFloor (q : ℚ) : q.floor = ⌊q⌋ := rfl

theorem bucketOf_of_range (m : ℚ) (h1 : 1000 ≤ m) (h2 : m ≤ 1099) :
    bucketOf m = 1000 := by
  have h : ((m / 100 : ℚ)).floor = 10 := by
    rw [ratFloor_eq_intFloor, Int.floor_eq_iff]
    constructor
    · rw [le_div_iff₀ (by norm_num : (0:ℚ) < 100)]
      push_cast
      linarith
    · rw [div_lt_iff₀ (by norm_num : (0:ℚ) < 100)]
      push_cast
      linarith
  rw [bucketOf, h]
  norm_num

/-! ## Claim theorems -/

/-- C4: with BUCKET = 100 and group size 8, running the consumer on 8 valid
tickets whose ratings all lie in [1000, 1099] (all publishes succeeding)
produces exactly one `match_found` event, split 4 + 4, whose two sides
together are exactly the 8 enqueued players, and leaves bucket 1000 empty;
running it on only 7 such tickets produces no event and leaves all 7
queued in bucket 1000. -/
theorem matchmaking_scenarios_A_B
    (ps qs : List EnqueuePayload) (now : ℚ)
    (hA8 : ps.length = 8)
    (hAval : ∀ p ∈ ps, validateEnqueuePayload p = true ∧
      1000 ≤ p.mmr ∧ p.mmr ≤ 1099)
    (hB7 : qs.length = 7)
    (hBval : ∀ p ∈ qs, validateEnqueuePayload p = true ∧
      1000 ≤ p.mmr ∧ p.mmr ≤ 1099) :
    ((runEnqueue (ps.map fun p => msgOf p true now) emptyStore).2.length = 1 ∧
     (∀ m ∈ (runEnqueue (ps.map fun p => msgOf p true now) emptyStore).2,
        m.teamA.length = 4 ∧ m.teamB.length = 4 ∧
        m.teamA ++ m.teamB = ps.reverse.map fun x => x.playerId) ∧
     (runEnqueue (ps.map fun p => msgOf p true now) emptyStore).1 1000 = []) ∧
    ((runEnqueue (qs.map fun p => msgOf p true now) emptyStore).2 = [] ∧
     (runEnqueue (qs.map fun p => msgOf p true now) emptyStore).1 1000 = qs) := by
  constructor
  · -- Scenario A
    have hne : ps ≠ [] := by
      intro h
      rw [h] at hA8
      simp at hA8
    have hsplit : ps.dropLast ++ [ps.getLast hne] = ps :=
      List.dropLast_append_getLast hne
    have hmem_dl : ∀ x ∈ ps.dropLast, x ∈ ps := by
      intro x hx
      rw [← hsplit]
      exact List.mem_append_left _ hx
    have hrun1 : runEnqueue (ps.dropLast.map fun p => msgOf p true now)
        emptyStore = (updateStore emptyStore 1000 ps.dropLast, []) := by
      have := runEnqueue_noTrigger ps.dropLast emptyStore 1000 now
        (fun p hp => ⟨(hAval p (hmem_dl p hp)).1,
          bucketOf_of_range _ (hAval p (hmem_dl p hp)).2.1
            (hAval p (hmem_dl p hp)).2.2⟩)
        (by simp [emptyStore, List.length_dropLast, hA8])
      simpa [emptyStore] using this
    have hlast_mem : ps.getLast hne ∈ ps := List.getLast_mem hne
    have hst1 : (updateStore emptyStore 1000 ps.dropLast) 1000 = ps.dropLast :=
      updateStore_same ..
    have hq : (updateStore emptyStore 1000 ps.dropLast) 1000 ++
        [ps.getLast hne] = ps := by rw [hst1, hsplit]
    have hclaim := handleValid_claim_eq true now
      (updateStore emptyStore 1000 ps.dropLast) (ps.getLast hne) 1000
      (bucketOf_of_range _ (hAval _ hlast_mem).2.1 (hAval _ hlast_mem).2.2)
      (by
        rw [hq]
        intro x hx
        exact (hAval x hx).1)
      (by rw [hq, hA8])
    rw [hq] at hclaim
    simp only at hclaim
    have hrun : runEnqueue (ps.map fun p => msgOf p true now) emptyStore =
        ((handleValid true now (updateStore emptyStore 1000 ps.dropLast)
          (ps.getLast hne)).store,
         (handleValid true now (updateStore emptyStore 1000 ps.dropLast)
          (ps.getLast hne)).published) := by
      conv_lhs => rw [← hsplit]
      rw [List.map_append, runEnqueue_append, hrun1]
      simp only [List.map_cons, List.map_nil]
      rw [runEnqueue_cons_valid _ _ true now _ (hAval _ hlast_mem).1]
      simp [runEnqueue]
    rw [if_pos trivial] at hclaim
    have htake : ps.take 8 = ps := List.take_of_length_le (by rw [hA8])
    have hdrop : ps.drop 8 = [] := List.drop_eq_nil_of_le (by rw [hA8])
    rw [hclaim, htake, hdrop] at hrun
    have hrevlen : ps.reverse.length = 8 := by rw [List.length_reverse, hA8]
    refine ⟨by rw [hrun]; rfl, ?_,
      by rw [hrun]; simp [updateStore]⟩
    intro m hm
    rw [hrun] at hm
    simp only [List.mem_singleton] at hm
    subst hm
    refine ⟨?_, ?_, ?_⟩
    · simp only [List.length_map, List.length_take, hrevlen]
      decide
    · simp only [List.length_map, List.length_take, List.length_drop, hrevlen]
      decide
    · have hdt : (ps.reverse.drop 4).take 4 = ps.reverse.drop 4 :=
        List.take_of_length_le (by rw [List.length_drop, hrevlen])
      show ((ps.reverse.take 4).map fun x => x.playerId) ++
          ((ps.reverse.drop 4).take 4).map (fun x => x.playerId) = _
      rw [hdt, ← List.map_append, List.take_append_drop]
  · -- Scenario B
    have := runEnqueue_noTrigger qs emptyStore 1000 now
      (fun p hp => ⟨(hBval p hp).1,
        bucketOf_of_range _ (hBval p hp).2.1 (hBval p hp).2.2⟩)
      (by simp [emptyStore, hB7])
    rw [this]
    refine ⟨rfl, ?_⟩
    show updateStore emptyStore 1000 (emptyStore 1000 ++ qs) 1000 = qs
    rw [updateStore_same]
    simp [emptyStore]

/-- C4 witness: 8 concrete tickets of rating 1000 produce exactly one
`match_found` event. -/
theorem matchmaking_scenarios_A_B_witness :
    (runEnqueue ((List.replicate 8 (⟨"w", 1000, 1⟩ : EnqueuePayload)).map
      fun p => msgOf p true 7) emptyStore).2.length = 1 :=
  (matchmaking_scenarios_A_B (List.replicate 8 ⟨"w", 1000, 1⟩)
    (List.replicate 7 ⟨"w", 1000, 1⟩) 7 (by decide) (by decide) (by decide)
    (by decide)).1.1

/-- C5: a successful claim removes exactly the 8 oldest entries of the
bucket's list: afterwards the bucket holds precisely the entries that were
inserted later than every claimed one (`drop 8` of the post-append list),
and the published match's members are exactly the ids of the 8 oldest
(`take 8`). -/
theorem claim_removes_oldest_eight
    (st : Store) (p : EnqueuePayload) (now : ℚ) (b : ℤ)
    (hb : bucketOf p.mmr = b)
    (hval : ∀ x ∈ st b ++ [p], validateEnqueuePayload x = true)
    (hlen : 8 ≤ (st b ++ [p]).length) :
    (handleValid true now st p).store b = (st b ++ [p]).drop 8 ∧
    (handleValid true now st p).published.length = 1 ∧
    ∀ m ∈ (handleValid true now st p).published,
      (m.teamA ++ m.teamB).Perm
        (((st b ++ [p]).take 8).map fun x => x.playerId) := by
  rw [handleValid_claim_eq true now st p b hb hval hlen]
  simp only [if_pos trivial]
  refine ⟨updateStore_same .., rfl, ?_⟩
  intro m hm
  simp only [List.mem_singleton] at hm
  subst hm
  have hlen8 : ((st b ++ [p]).take 8).reverse.length = 8 := by
    rw [List.length_reverse, List.length_take]
    omega
  have hdt : (((st b ++ [p]).take 8).reverse.drop 4).take 4 =
      ((st b ++ [p]).take 8).reverse.drop 4 :=
    List.take_of_length_le (by rw [List.length_drop, hlen8])
  show ((((st b ++ [p]).take 8).reverse.take 4).map fun x => x.playerId) ++
      ((((st b ++ [p]).take 8).reverse.drop 4).take 4).map
        (fun x => x.playerId) |>.Perm _
  rw [hdt, ← List.map_append, List.take_append_drop, List.map_reverse]
  exact List.reverse_perm _

/-- C6 (amended): every match published from a successful claim has sides
of exactly 4 entries each and their concatenation is exactly the claimed
group (in the newest-first order the code reads it), so no participant is
lost or duplicated; when the group's 8 participant ids are pairwise
distinct — the case the pipeline's no-double-booking invariant intends —
the two sides are moreover disjoint. -/
theorem match_sides_partition_group
    (st : Store) (p : EnqueuePayload) (now : ℚ) (b : ℤ)
    (hb : bucketOf p.mmr = b)
    (hval : ∀ x ∈ st b ++ [p], validateEnqueuePayload x = true)
    (hlen : 8 ≤ (st b ++ [p]).length) :
    ∀ m ∈ (handleValid true now st p).published,
      m.teamA.length = 4 ∧ m.teamB.length = 4 ∧
      m.teamA ++ m.teamB =
        ((st b ++ [p]).take 8).reverse.map (fun x => x.playerId) ∧
      ((((st b ++ [p]).take 8).reverse.map fun x => x.playerId).Nodup →
        ∀ x ∈ m.teamA, x ∉ m.teamB) := by
  rw [handleValid_claim_eq true now st p b hb hval hlen]
  simp only [if_pos trivial]
  intro m hm
  simp only [List.mem_singleton] at hm
  subst hm
  have hlen8 : ((st b ++ [p]).take 8).reverse.length = 8 := by
    rw [List.length_reverse, List.length_take]
    omega
  have hdt : (((st b ++ [p]).take 8).reverse.drop 4).take 4 =
      ((st b ++ [p]).take 8).reverse.drop 4 :=
    List.take_of_length_le (by rw [List.length_drop, hlen8])
  have hunion : ((((st b ++ [p]).take 8).reverse.take 4).map
        fun x => x.playerId) ++
      ((((st b ++ [p]).take 8).reverse.drop 4).take 4).map
        (fun x => x.playerId) =
      ((st b ++ [p]).take 8).reverse.map (fun x => x.playerId) := by
    rw [hdt, ← List.map_append, List.take_append_drop]
  refine ⟨?_, ?_, hunion, ?_⟩
  · simp only [List.length_map, List.length_take, hlen8]
    decide
  · simp only [List.length_map, List.length_take, List.length_drop, hlen8]
    decide
  · intro hnd x hxA hxB
    have hnd' : ((((st b ++ [p]).take 8).reverse.take 4).map
          (fun x => x.playerId) ++
        ((((st b ++ [p]).take 8).reverse.drop 4).take 4).map
          (fun x => x.playerId)).Nodup := by
      rw [hunion]
      exact hnd
    exact List.disjoint_of_nodup_append hnd' hxA hxB

/-- C1: when the `match_found` publish fails after a claim that emptied an
8-entry bucket, every claimed entry is pushed back into that bucket: no
event is published, the bucket again holds a permutation of the same 8
entries (count restored, none lost or duplicated), and the next successful
claim on that bucket (triggered by any further valid enqueue into it)
publishes a match made of exactly those 8 players. -/
theorem publish_failure_restores_bucket
    (st : Store) (p : EnqueuePayload) (now : ℚ) (b : ℤ)
    (hb : bucketOf p.mmr = b)
    (hval : ∀ x ∈ st b ++ [p], validateEnqueuePayload x = true)
    (h8 : (st b ++ [p]).length = 8) :
    (handleValid false now st p).published = [] ∧
    (handleValid false now st p).store b = (st b ++ [p]).reverse ∧
    ((handleValid false now st p).store b).Perm (st b ++ [p]) ∧
    (∀ p' now', bucketOf p'.mmr = b → validateEnqueuePayload p' = true →
      (handleValid true now' (handleValid false now st p).store p').store b
        = [p'] ∧
      (handleValid true now'
        (handleValid false now st p).store p').published.length = 1 ∧
      ∀ m ∈ (handleValid true now'
          (handleValid false now st p).store p').published,
        m.teamA ++ m.teamB = (st b ++ [p]).map fun x => x.playerId) := by
  have h8' : 8 ≤ (st b ++ [p]).length := le_of_eq h8.symm
  have hdrop : (st b ++ [p]).drop 8 = [] := by
    rw [← h8]
    exact List.drop_length _
  have htake : (st b ++ [p]).take 8 = st b ++ [p] := by
    rw [← h8]
    exact List.take_length _
  have hclaim := handleValid_claim_eq false now st p b hb hval h8'
  simp only [Bool.false_eq_true, if_false, hdrop, htake,
    List.nil_append] at hclaim
  have hpub : (handleValid false now st p).published = [] := by
    rw [hclaim]
  have hstore : (handleValid false now st p).store b =
      (st b ++ [p]).reverse := by
    rw [hclaim]
    exact updateStore_same ..
  refine ⟨hpub, hstore, by rw [hstore]; exact List.reverse_perm _, ?_⟩
  intro p' now' hb' hv'
  have hrl : ((st b ++ [p]).reverse).length = 8 := by
    rw [List.length_reverse, h8]
  have hval2 : ∀ x ∈ (handleValid false now st p).store b ++ [p'],
      validateEnqueuePayload x = true := by
    rw [hstore]
    intro x hx
    rcases List.mem_append.mp hx with h | h
    · exact hval x (List.mem_reverse.mp h)
    · simp only [List.mem_singleton] at h
      subst h
      exact hv'
  have hlen2 : 8 ≤ ((handleValid false now st p).store b ++ [p']).length := by
    rw [hstore, List.length_append, hrl]
    simp
  have hclaim2 := handleValid_claim_eq true now'
    (handleValid false now st p).store p' b hb' hval2 hlen2
  rw [hstore] at hclaim2
  have htk : ((st b ++ [p]).reverse ++ [p']).take 8 = (st b ++ [p]).reverse := by
    rw [← hrl]
    exact List.take_left ..
  have hdr : ((st b ++ [p]).reverse ++ [p']).drop 8 = [p'] := by
    rw [← hrl]
    exact List.drop_left ..
  simp only [if_pos trivial, htk, hdr, List.reverse_reverse] at hclaim2
  refine ⟨by rw [hclaim2]; exact updateStore_same .., by rw [hclaim2]; rfl, ?_⟩
  intro m hm
  rw [hclaim2] at hm
  simp only [List.mem_singleton] at hm
  subst hm
  have hdt : ((st b ++ [p]).drop 4).take 4 = (st b ++ [p]).drop 4 :=
    List.take_of_length_le (by rw [List.length_drop, h8])
  show ((st b ++ [p]).take 4).map (fun x => x.playerId) ++
      (((st b ++ [p]).drop 4).take 4).map (fun x => x.playerId) = _
  rw [hdt, ← List.map_append, List.take_append_drop]

/-- C7 (amended): after a failed publish the claimed entries are pushed
back with `lpush`, which is the newest end of the claim order: the bucket
becomes the still-waiting entries (`drop 8`, which stay next in line to be
claimed) followed by the claimed ones in reverse of their pre-claim order. -/
theorem requeue_lands_behind_waiting
    (st : Store) (p : EnqueuePayload) (now : ℚ) (b : ℤ)
    (hb : bucketOf p.mmr = b)
    (hval : ∀ x ∈ st b ++ [p], validateEnqueuePayload x = true)
    (hlen : 8 ≤ (st b ++ [p]).length) :
    (handleValid false now st p).published = [] ∧
    (handleValid false now st p).store b =
      (st b ++ [p]).drop 8 ++ ((st b ++ [p]).take 8).reverse := by
  have hclaim := handleValid_claim_eq false now st p b hb hval hlen
  simp only [Bool.false_eq_true, if_false] at hclaim
  rw [hclaim]
  exact ⟨rfl, updateStore_same ..⟩

/-- C1 witness: concrete 8-ticket bucket, failed publish, nothing
published. -/
theorem publish_failure_restores_bucket_witness :
    (handleValid false 8 (updateStore emptyStore 1000
      (List.replicate 7 (⟨"w", 1000, 1⟩ : EnqueuePayload)))
      ⟨"x", 1000, 1⟩).published = [] :=
  (publish_failure_restores_bucket _ _ 8 1000 (by decide) (by decide)
    (by decide)).1

/-- C5 witness: concrete claim leaves exactly the entries after the oldest
8. -/
theorem claim_removes_oldest_eight_witness :
    (handleValid true 9 (updateStore emptyStore 1000
      (List.replicate 7 (⟨"w", 1000, 1⟩ : EnqueuePayload)))
      ⟨"x", 1000, 1⟩).store 1000 =
      ((updateStore emptyStore 1000
        (List.replicate 7 (⟨"w", 1000, 1⟩ : EnqueuePayload))) 1000 ++
        [(⟨"x", 1000, 1⟩ : EnqueuePayload)]).drop 8 :=
  (claim_removes_oldest_eight _ _ 9 1000 (by decide) (by decide)
    (by decide)).1

/-- C6 witness: the concrete published match has a 4-member side A. -/
theorem match_sides_partition_group_witness :
    (⟨"CONTROL", "auto", ["x", "w", "w", "w"], ["w", "w", "w", "w"], 9⟩ :
      MatchMsg).teamA.length = 4 :=
  (match_sides_partition_group (updateStore emptyStore 1000
      (List.replicate 7 (⟨"w", 1000, 1⟩ : EnqueuePayload)))
    ⟨"x", 1000, 1⟩ 9 1000 (by decide) (by decide) (by decide)
    ⟨"CONTROL", "auto", ["x", "w", "w", "w"], ["w", "w", "w", "w"], 9⟩
    (by decide)).1

/-- C7 witness: with 8 waiting entries plus the trigger, the re-queued 8
land behind the entry that stayed in the bucket. -/
theorem requeue_lands_behind_waiting_witness :
    (handleValid false 9 (updateStore emptyStore 1000
      (List.replicate 8 (⟨"w", 1000, 1⟩ : EnqueuePayload)))
      ⟨"x", 1000, 1⟩).store 1000 =
      ((updateStore emptyStore 1000
        (List.replicate 8 (⟨"w", 1000, 1⟩ : EnqueuePayload))) 1000 ++
        [(⟨"x", 1000, 1⟩ : EnqueuePayload)]).drop 8 ++
      (((updateStore emptyStore 1000
        (List.replicate 8 (⟨"w", 1000, 1⟩ : EnqueuePayload))) 1000 ++
        [(⟨"x", 1000, 1⟩ : EnqueuePayload)]).take 8).reverse :=
  (requeue_lands_behind_waiting _ _ 9 1000 (by decide) (by decide)
    (by decide)).2

/-- C7 counterexample: run p1..p7 (ok), p8 (publish fails — p1..p8 are
claimed and re-queued), p9 (publish fails — p1..p8 are claimed again and
re-queued while p9 stays waiting), p10 (ok).  The one successful match
contains the waiting ticket p9 but NOT the re-queued ticket p8, and p8 is
still queued at the end — the re-queued tickets were not the next ones
claimed, contradicting re-insertion at the head of the claim order. -/
theorem requeue_not_next_counterexample :
    (runEnqueue
      (((List.range 7).map fun i =>
          msgOf ⟨"p" ++ toString (i + 1), 1000, 1⟩ true 7) ++
        [msgOf ⟨"p8", 1000, 1⟩ false 8, msgOf ⟨"p9", 1000, 1⟩ false 9,
         msgOf ⟨"p10", 1000, 1⟩ true 10]) emptyStore).2 =
      [⟨"CONTROL", "auto", ["p7", "p6", "p5", "p4"],
        ["p3", "p2", "p1", "p9"], 10⟩] ∧
    ((runEnqueue
      (((List.range 7).map fun i =>
          msgOf ⟨"p" ++ toString (i + 1), 1000, 1⟩ true 7) ++
        [msgOf ⟨"p8", 1000, 1⟩ false 8, msgOf ⟨"p9", 1000, 1⟩ false 9,
         msgOf ⟨"p10", 1000, 1⟩ true 10]) emptyStore).1 1000).map
        (fun x => x.playerId) = ["p8", "p10"] := by
  decide

/-- C2 (evidence of the race): two workers run the claim pair
`lrange` / `ltrim` on the same 8-ticket bucket; in the interleaving where
both `lrange`s precede the `ltrim`s, both workers receive all 8 tickets
(full overlap), the bucket ends empty, and ticket "0" — enqueued once — is
claimed twice while the sum of claims and remainder no longer matches what
was enqueued. -/
theorem claim_race_two_workers :
    (execClaimSched
      ⟨(List.range 8).map (fun i => (⟨toString i, 1000, 1⟩ : EnqueuePayload)),
        none, none⟩
      [ClaimCmd.range1, ClaimCmd.range2, ClaimCmd.trim1,
       ClaimCmd.trim2]).got1 =
      some (((List.range 8).map
        (fun i => (⟨toString i, 1000, 1⟩ : EnqueuePayload))).reverse) ∧
    (execClaimSched
      ⟨(List.range 8).map (fun i => (⟨toString i, 1000, 1⟩ : EnqueuePayload)),
        none, none⟩
      [ClaimCmd.range1, ClaimCmd.range2, ClaimCmd.trim1,
       ClaimCmd.trim2]).got2 =
      some (((List.range 8).map
        (fun i => (⟨toString i, 1000, 1⟩ : EnqueuePayload))).reverse) ∧
    (execClaimSched
      ⟨(List.range 8).map (fun i => (⟨toString i, 1000, 1⟩ : EnqueuePayload)),
        none, none⟩
      [ClaimCmd.range1, ClaimCmd.range2, ClaimCmd.trim1,
       ClaimCmd.trim2]).bucket = [] ∧
    (((execClaimSched
      ⟨(List.range 8).map (fun i => (⟨toString i, 1000, 1⟩ : EnqueuePayload)),
        none, none⟩
      [ClaimCmd.range1, ClaimCmd.range2, ClaimCmd.trim1,
       ClaimCmd.trim2]).got1.getD []) ++
     ((execClaimSched
      ⟨(List.range 8).map (fun i => (⟨toString i, 1000, 1⟩ : EnqueuePayload)),
        none, none⟩
      [ClaimCmd.range1, ClaimCmd.range2, ClaimCmd.trim1,
       ClaimCmd.trim2]).got2.getD []) ++
     (execClaimSched
      ⟨(List.range 8).map (fun i => (⟨toString i, 1000, 1⟩ : EnqueuePayload)),
        none, none⟩
      [ClaimCmd.range1, ClaimCmd.range2, ClaimCmd.trim1,
       ClaimCmd.trim2]).bucket).count ⟨"0", 1000, 1⟩ = 2 ∧
    (((List.range 8).map
      (fun i => (⟨toString i, 1000, 1⟩ : EnqueuePayload))).count
        ⟨"0", 1000, 1⟩) = 1 := by
  decide

/-- C3 counterexample: a valid `match_found` with `createdAt = 5` processed
at wall-clock time 100 is stored with `createdAt = 5` (the match's own
timestamp, not the processing time) and with no `expiresAt` field — only
the store entry's TTL, 24 h from now, encodes expiry. -/
theorem session_createdAt_not_now_counterexample :
    validateMatchData
      ⟨"CONTROL", "auto", ["a", "b", "c", "d"], ["e", "f", "g", "h"], 5⟩ =
      true ∧
    (processMatchFound 100 "id1" emptySessionStore
      ⟨"CONTROL", "auto", ["a", "b", "c", "d"], ["e", "f", "g", "h"],
        5⟩).1.entries =
      [("session:id1",
        ⟨"id1", "auto", "CONTROL", ["a", "b", "c", "d"],
          ["e", "f", "g", "h"], 5⟩,
        100 + 24 * 60 * 60)] ∧
    (5 : ℚ) ≠ 100 := by
  decide

/-- C3 (amended): for every `match_found` that passes validation the
materializer stores, under `session:<uuid>`, a session copying the match's
mode, region, sides and `createdAt` (the match's own timestamp), with a
TTL of 24 hours from processing time — a get before that deadline returns
the session, one at or after it returns nothing — and publishes
`session.created { id, match }`. -/
theorem session_materializer_amended
    (now : ℚ) (uuid : String) (st : SessionStore) (m : MatchMsg)
    (hv : validateMatchData m = true) :
    processMatchFound now uuid st m =
      (⟨("session:" ++ uuid,
         ⟨uuid, m.region, m.mode, m.teamA, m.teamB, m.createdAt⟩,
         now + 24 * 60 * 60) :: st.entries⟩, [⟨uuid, m⟩]) ∧
    (∀ t, t < now + 24 * 60 * 60 →
      redisGet (processMatchFound now uuid st m).1 t ("session:" ++ uuid) =
        some ⟨uuid, m.region, m.mode, m.teamA, m.teamB, m.createdAt⟩) ∧
    (∀ t, now + 24 * 60 * 60 ≤ t →
      redisGet (processMatchFound now uuid st m).1 t ("session:" ++ uuid) =
        none) := by
  have heq : processMatchFound now uuid st m =
      (⟨("session:" ++ uuid,
         ⟨uuid, m.region, m.mode, m.teamA, m.teamB, m.createdAt⟩,
         now + 24 * 60 * 60) :: st.entries⟩, [⟨uuid, m⟩]) := by
    rw [processMatchFound, if_pos hv]
    rfl
  refine ⟨heq, ?_, ?_⟩
  · intro t ht
    rw [heq]
    simp only [redisGet, List.find?, beq_self_eq_true]
    rw [if_pos ht]
  · intro t ht
    rw [heq]
    simp only [redisGet, List.find?, beq_self_eq_true]
    rw [if_neg (not_lt.mpr ht)]

/-- C3 witness: the amended statement at the counterexample's inputs. -/
theorem session_materializer_amended_witness :
    processMatchFound 100 "id1" emptySessionStore
      ⟨"CONTROL", "auto", ["a", "b", "c", "d"], ["e", "f", "g", "h"], 5⟩ =
      (⟨[("session:id1",
          ⟨"id1", "auto", "CONTROL", ["a", "b", "c", "d"],
            ["e", "f", "g", "h"], 5⟩,
          100 + 24 * 60 * 60)]⟩, [⟨"id1",
        ⟨"CONTROL", "auto", ["a", "b", "c", "d"], ["e", "f", "g", "h"],
          5⟩⟩]) :=
  (session_materializer_amended 100 "id1" emptySessionStore
    ⟨"CONTROL", "auto", ["a", "b", "c", "d"], ["e", "f", "g", "h"], 5⟩
    (by decide)).1

/-- C8 counterexample: the payload `{ playerId: "a", mmr: 5, ts: 0 }` has a
non-empty participant id and the integer rating 5 ∈ [0, 10000], yet
validation rejects it (its `ts` is not positive) and nothing is enqueued —
so passing the claim's condition does not suffice for acceptance. -/
theorem enqueue_validation_counterexample :
    0 < "a".length ∧ ((5 : ℚ)).den = 1 ∧ (0 : ℚ) ≤ 5 ∧ (5 : ℚ) ≤ 10000 ∧
    validateEnqueuePayloadRaw ⟨some "a", some 5, some 0⟩ = false ∧
    (enqueueOp emptyStore ⟨some "a", some 5, some 0⟩).2 = none ∧
    (enqueueOp emptyStore ⟨some "a", some 5, some 0⟩).1 1000 =
      emptyStore 1000 := by
  decide

/-- C8 (amended): `enqueue` accepts a payload — appending it to the list at
`BucketKey(rating)` and yielding that bucket's post-append length — if and
only if it carries a non-empty string participant id, a numeric (not
necessarily integer) rating in [0, 10000], and a positive numeric
timestamp; a payload failing this validation leaves the store unchanged
and yields no length. -/
theorem enqueue_validation_amended (st : Store) (raw : RawPayload) :
    (validateEnqueuePayloadRaw raw = true ↔
      ∃ pid m t, raw = ⟨some pid, some m, some t⟩ ∧
        0 < pid.length ∧ 0 ≤ m ∧ m ≤ 10000 ∧ 0 < t) ∧
    (∀ pid m t, raw = ⟨some pid, some m, some t⟩ →
      validateEnqueuePayloadRaw raw = true →
        enqueueOp st raw =
          (updateStore st (bucketOf m) (st (bucketOf m) ++ [⟨pid, m, t⟩]),
           some ((st (bucketOf m)).length + 1))) ∧
    (validateEnqueuePayloadRaw raw = false → enqueueOp st raw = (st, none)) := by
  refine ⟨?_, ?_, ?_⟩
  · constructor
    · intro h
      obtain ⟨pid, hpid⟩ : ∃ pid, raw.playerId = some pid := by
        cases hx : raw.playerId with
        | none =>
          rw [validateEnqueuePayloadRaw.eq_def, hx] at h
          cases hy : raw.mmr <;> cases hz : raw.ts <;> simp_all
        | some pid => exact ⟨pid, rfl⟩
      obtain ⟨mv, hm⟩ : ∃ mv, raw.mmr = some mv := by
        cases hy : raw.mmr with
        | none =>
          rw [validateEnqueuePayloadRaw.eq_def, hpid, hy] at h
          cases hz : raw.ts <;> simp_all
        | some mv => exact ⟨mv, rfl⟩
      obtain ⟨tv, htv⟩ : ∃ tv, raw.ts = some tv := by
        cases hz : raw.ts with
        | none =>
          rw [validateEnqueuePayloadRaw.eq_def, hpid, hm, hz] at h
          simp_all
        | some tv => exact ⟨tv, rfl⟩
      refine ⟨pid, mv, tv, ?_, ?_⟩
      · cases raw
        simp_all
      · rw [validateEnqueuePayloadRaw.eq_def, hpid, hm, htv] at h
        simp only [Bool.and_eq_true, decide_eq_true_eq] at h
        exact ⟨h.1.1.1, h.1.1.2, h.1.2, h.2⟩
    · rintro ⟨pid, mv, tv, rfl, h1, h2, h3, h4⟩
      rw [validateEnqueuePayloadRaw]
      simp only [Bool.and_eq_true, decide_eq_true_eq]
      exact ⟨⟨⟨h1, h2⟩, h3⟩, h4⟩
  · rintro pid mv tv rfl h
    rw [enqueueOp, if_pos h]
    rfl
  · intro h
    rw [enqueueOp, h]
    rfl

/-- C8 witness: a valid concrete payload is appended to bucket 1000 and
the post-append length 1 is returned. -/
theorem enqueue_validation_amended_witness :
    enqueueOp emptyStore ⟨some "a", some 1000, some 1⟩ =
      (updateStore emptyStore (bucketOf 1000)
        (emptyStore (bucketOf 1000) ++ [⟨"a", 1000, 1⟩]),
       some ((emptyStore (bucketOf 1000)).length + 1)) :=
  (enqueue_validation_amended emptyStore ⟨some "a", some 1000, some 1⟩).2.1
    "a" 1000 1 rfl (by decide)

/-- C9: a non-UUID-shaped id is answered 400 whatever the store holds (no
lookup); a UUID-shaped id whose `get` yields nothing — never stored, or
its latest record has reached its TTL deadline — is answered 404; a
UUID-shaped id whose `get` yields a stored, unexpired record is answered
200 with exactly that record. -/
theorem session_lookup_endpoint (st : SessionStore) (now : ℚ) (id : String) :
    (uuidShaped id = false →
      ∀ st' : SessionStore, ∀ now' : ℚ,
        getSessionEndpoint st' now' id = .badRequest) ∧
    (uuidShaped id = true →
      redisGet st now ("session:" ++ id) = none →
        getSessionEndpoint st now id = .notFound) ∧
    (∀ v rest texp, uuidShaped id = true →
      st.entries = ("session:" ++ id, v, texp) :: rest → texp ≤ now →
        getSessionEndpoint st now id = .notFound) ∧
    (∀ s, uuidShaped id = true →
      redisGet st now ("session:" ++ id) = some s →
        getSessionEndpoint st now id = .ok s) := by
  refine ⟨?_, ?_, ?_, ?_⟩
  · intro h st' now'
    rw [getSessionEndpoint, if_pos]
    rw [h]
    rfl
  · intro h hnone
    rw [getSessionEndpoint, if_neg (by rw [h]; decide), hnone]
  · intro v rest texp h hentries hexp
    have hnone : redisGet st now ("session:" ++ id) = none := by
      rw [redisGet, hentries]
      simp only [List.find?, beq_self_eq_true]
      rw [if_neg (not_lt.mpr hexp)]
    rw [getSessionEndpoint, if_neg (by rw [h]; decide), hnone]
  · intro s h hsome
    rw [getSessionEndpoint, if_neg (by rw [h]; decide), hsome]

/-- C9 witness: `GET /v1/sessions/not-a-uuid` is a 400, and a stored but
expired session is a 404. -/
theorem session_lookup_endpoint_witness :
    getSessionEndpoint emptySessionStore 0 "not-a-uuid" =
      SessionLookupResult.badRequest :=
  (session_lookup_endpoint emptySessionStore 0 "not-a-uuid").1 (by decide)
    emptySessionStore 0

theorem uuidShaped_length (s : String) (h : uuidShaped s = true) :
    s.length = 36 := by
  rw [uuidShaped] at h
  have h1 : (s.toList.length == 36) = true :=
    ((Bool.and_eq_true _ _).mp h).1
  have h2 : s.toList.length = 36 := by simpa using h1
  have h3 : s.length = s.toList.length := rfl
  omega

/-- C10: a request body with a valid (UUID-shaped) playerId and no `mmr`
field is not rejected: the gateway publishes it with `mmr = 1000`, the
matchmaking validator accepts the published payload, and the enqueue
appends it to bucket 1000 (`BucketKey(1000) = 1000`). -/
theorem missing_mmr_defaults_to_bucket_1000
    (now : ℚ) (pid : String) (st : Store)
    (hpid : uuidShaped pid = true) (hnow : 0 < now) :
    gatewayEnqueue now ⟨some pid, none⟩ =
      .enqueued ⟨some pid, some 1000, some now⟩ ∧
    bucketOf 1000 = 1000 ∧
    enqueueOp st ⟨some pid, some 1000, some now⟩ =
      (updateStore st 1000 (st 1000 ++ [⟨pid, 1000, now⟩]),
       some ((st 1000).length + 1)) := by
  have hlen : pid.length = 36 := uuidShaped_length pid hpid
  have hbucket : bucketOf 1000 = 1000 := by decide
  have hval : validateEnqueuePayloadRaw ⟨some pid, some 1000, some now⟩ =
      true := by
    rw [validateRaw_some, validateEnqueuePayload]
    simp only [Bool.and_eq_true, decide_eq_true_eq]
    refine ⟨⟨⟨?_, by norm_num⟩, by norm_num⟩, hnow⟩
    rw [hlen]
    norm_num
  refine ⟨?_, hbucket, ?_⟩
  · rw [gatewayEnqueue]
    simp only [hlen, hpid]
    simp
  · rw [enqueueOp, if_pos hval]
    show (updateStore st (bucketOf 1000) (st (bucketOf 1000) ++
      [⟨pid, 1000, now⟩]), some ((st (bucketOf 1000)).length + 1)) = _
    rw [hbucket]

/-- C10 witness: a concrete UUID-shaped playerId with no `mmr` is accepted
and published with `mmr = 1000`. -/
theorem missing_mmr_defaults_to_bucket_1000_witness :
    gatewayEnqueue 1
      ⟨some "123e4567-e89b-42d3-a456-426614174000", none⟩ =
      GatewayResult.enqueued
        ⟨some "123e4567-e89b-42d3-a456-426614174000", some 1000, some 1⟩ :=
  (missing_mmr_defaults_to_bucket_1000 1
    "123e4567-e89b-42d3-a456-426614174000" emptyStore (by decide)
    (by decide)).1

/-- C6 counterexample: nothing stops one participant from being enqueued
repeatedly, and the split is a plain 4/4 cut, so a group of 8 tickets all
carrying playerId "w" yields a match whose two sides both contain "w" —
the sides are not disjoint as sets of participants. -/
theorem match_sides_not_disjoint_counterexample :
    (handleValid true 9 (updateStore emptyStore 1000
      (List.replicate 7 (⟨"w", 1000, 1⟩ : EnqueuePayload)))
      ⟨"w", 1000, 1⟩).published =
      [⟨"CONTROL", "auto", ["w", "w", "w", "w"], ["w", "w", "w", "w"], 9⟩] ∧
    "w" ∈ (⟨"CONTROL", "auto", ["w", "w", "w", "w"],
      ["w", "w", "w", "w"], 9⟩ : MatchMsg).teamA ∧
    "w" ∈ (⟨"CONTROL", "auto", ["w", "w", "w", "w"],
      ["w", "w", "w", "w"], 9⟩ : MatchMsg).teamB := by
  decide
